import Mathlib

/-!
# Verification of the Meow_Bot music-player core

Shallow embedding of the queue / playback-state / cache / downloader
subsystem of the repository (src/module/music_player and the song-end
callback of src/cogs/music_cog.py), together with proofs of the
specification's claims about it.

Conventions:
* Python `time.time()` timestamps are modelled as rationals (ℚ).
* Python `int(x)` (truncation toward zero) is modelled by `pyInt`.
* The file system owned by `CacheManager` is modelled as the set of song
  identifiers that currently have a cache file (`cachedIds`), and the set
  of in-flight prefetch tasks as `preloadIds`.
* A Python method that mutates `self` becomes a function returning the
  new state (paired with the return value when the method has one).
-/

/-- Song record (src/module/music_player/core/queue.py, `Song`). -/
structure Song where
  id : String
  title : String
  url : String
  duration : Int
  uploader : String
  uploader_url : String := ""
  thumbnail : String := ""
  requester_id : Option Int := none
  cached_path : Option String := none
deriving Repr, DecidableEq

/-- Queue state (src/module/music_player/core/queue.py, `MusicQueue`):
the song list, the 0-based current index (−1 when empty), the loop flag.
The asyncio lock only serialises mutations and carries no data. -/
structure MusicQueue where
  queue : List Song
  current_index : Int
  loop : Bool
deriving Repr, DecidableEq

namespace MusicQueue

/-- A fresh queue, as built by `MusicQueue.__init__`. -/
def empty : MusicQueue := { queue := [], current_index := -1, loop := false }

/-- `current_song` property: `None` when the index is out of range. -/
def current_song (q : MusicQueue) : Option Song :=
  if q.current_index < 0 ∨ (q.queue.length : Int) ≤ q.current_index then none
  else q.queue.get? q.current_index.toNat

/-- `add`: append, and make the song current when it is the first one. -/
def add (q : MusicQueue) (song : Song) : MusicQueue :=
  let newQueue := q.queue ++ [song]
  { q with
    queue := newQueue
    current_index := if newQueue.length = 1 then 0 else q.current_index }

/-- `add_many`: extend, and set index 0 when the queue was empty before. -/
def add_many (q : MusicQueue) (songs : List Song) : MusicQueue :=
  let firstAdd := q.queue.length = 0
  let newQueue := q.queue ++ songs
  { q with
    queue := newQueue
    current_index :=
      if firstAdd ∧ 0 < newQueue.length then 0 else q.current_index }

/-- Index adjustment shared by both removal operations
(the `# 調整 current_index` block): `n` is the length after the pop,
`i` the popped position. -/
def adjustIndex (n : Nat) (i : Nat) (cur : Int) : Int :=
  if n = 0 then -1
  else if (i : Int) < cur then cur - 1
  else if (i : Int) = cur then
    (if (n : Int) ≤ cur then (n : Int) - 1 else cur)
  else cur

/-- First index whose song has the given id (the `for i, song in
enumerate(...)` search inside `remove`). -/
def findIdxById (songId : String) : List Song → Option Nat
  | [] => none
  | s :: rest =>
      if s.id = songId then some 0
      else (findIdxById songId rest).map (· + 1)

/-- `remove(song_id)`: pop the first song with that id and fix the index. -/
def remove (q : MusicQueue) (songId : String) : Option Song × MusicQueue :=
  match findIdxById songId q.queue with
  | none => (none, q)
  | some i =>
      let removed := q.queue.get? i
      let newQueue := q.queue.eraseIdx i
      (removed,
        { q with
          queue := newQueue
          current_index := adjustIndex newQueue.length i q.current_index })

/-- `remove_by_index(index)`: 1-based index, pop and fix the index. -/
def remove_by_index (q : MusicQueue) (index : Int) : Option Song × MusicQueue :=
  let pos := index - 1
  if pos < 0 ∨ (q.queue.length : Int) ≤ pos then (none, q)
  else
    let removed := q.queue.get? pos.toNat
    let newQueue := q.queue.eraseIdx pos.toNat
    (removed,
      { q with
        queue := newQueue
        current_index := adjustIndex newQueue.length pos.toNat q.current_index })

/-- `clear()`: drop everything, index back to −1; returns the old count. -/
def clear (q : MusicQueue) : Nat × MusicQueue :=
  (q.queue.length, { q with queue := [], current_index := -1 })

/-- `next()`: advance; wraps under loop, stops at the end otherwise. -/
def next (q : MusicQueue) : Option Song × MusicQueue :=
  if q.queue.length = 0 then (none, q)
  else if q.loop then
    let q' := { q with current_index := (q.current_index + 1) % (q.queue.length : Int) }
    (q'.current_song, q')
  else if (q.queue.length : Int) ≤ q.current_index + 1 then (none, q)
  else
    let q' := { q with current_index := q.current_index + 1 }
    (q'.current_song, q')

/-- `previous()`: step back; wraps under loop, stops at the front otherwise. -/
def previous (q : MusicQueue) : Option Song × MusicQueue :=
  if q.queue.length = 0 then (none, q)
  else if q.loop then
    let q' := { q with current_index := (q.current_index - 1) % (q.queue.length : Int) }
    (q'.current_song, q')
  else if q.current_index ≤ 0 then (none, q)
  else
    let q' := { q with current_index := q.current_index - 1 }
    (q'.current_song, q')

/-- `jump_to(index)`: 0-based; out of range returns `None`, state untouched. -/
def jump_to (q : MusicQueue) (index : Int) : Option Song × MusicQueue :=
  if index < 0 ∨ (q.queue.length : Int) ≤ index then (none, q)
  else
    let q' := { q with current_index := index }
    (q'.current_song, q')

/-- `has_next()`. -/
def has_next (q : MusicQueue) : Bool :=
  if q.queue.length = 0 then false
  else if q.loop then decide (1 < q.queue.length)
  else decide (q.current_index + 1 < (q.queue.length : Int))

/-- `has_previous()`. -/
def has_previous (q : MusicQueue) : Bool :=
  if q.queue.length = 0 then false
  else if q.loop then decide (1 < q.queue.length)
  else decide (0 < q.current_index)

/-- The index invariant of the spec's data model: −1 exactly when the
queue is empty, otherwise within `[0, length)`. -/
def wf (q : MusicQueue) : Prop :=
  if q.queue.length = 0 then q.current_index = -1
  else 0 ≤ q.current_index ∧ q.current_index < (q.queue.length : Int)

instance (q : MusicQueue) : Decidable (wf q) := by
  unfold wf; infer_instance

end MusicQueue

/-- A concrete song used by the closed witnesses. -/
def songA : Song :=
  { id := "a", title := "A", url := "ua", duration := 100, uploader := "u" }

/-- A second concrete song used by the closed witnesses. -/
def songB : Song :=
  { id := "b", title := "B", url := "ub", duration := 200, uploader := "u" }

/-- A third concrete song used by the closed witnesses. -/
def songC : Song :=
  { id := "c", title := "C", url := "uc", duration := 300, uploader := "u" }

/-- Python `int(x)` on a rational: truncation toward zero. -/
def pyInt (x : ℚ) : Int :=
  if 0 ≤ x then ⌊x⌋ else ⌈x⌉

/-- Playback-state record (src/module/music_player/core/state.py,
`PlaybackState`).  `time.time()` values are rationals. -/
structure PlaybackState where
  is_playing : Bool := false
  is_paused : Bool := false
  start_time : ℚ := 0
  pause_start : ℚ := 0
  total_paused : ℚ := 0
  duration : Int := 0
  current_song_id : Option String := none
  last_manual_operation_time : ℚ := 0
deriving Repr, DecidableEq

namespace PlaybackState

/-- `start(duration, song_id)` called at wall-clock time `now`. -/
def start (st : PlaybackState) (now : ℚ) (duration : Int)
    (songId : Option String := none) : PlaybackState :=
  { st with
    is_playing := true
    is_paused := false
    start_time := now
    total_paused := 0
    duration := duration
    current_song_id := songId }

/-- `pause()` at time `now`; returns whether the pause took effect. -/
def pause (st : PlaybackState) (now : ℚ) : Bool × PlaybackState :=
  if st.is_playing ∧ ¬st.is_paused then
    (true, { st with is_paused := true, pause_start := now })
  else (false, st)

/-- `resume()` at time `now`; returns whether the resume took effect. -/
def resume (st : PlaybackState) (now : ℚ) : Bool × PlaybackState :=
  if st.is_paused then
    (true,
      { st with
        is_paused := false
        total_paused := st.total_paused + (now - st.pause_start) })
  else (false, st)

/-- `stop()`: all anchors reset, duration kept. -/
def stop (st : PlaybackState) : PlaybackState :=
  { st with
    is_playing := false
    is_paused := false
    start_time := 0
    pause_start := 0
    total_paused := 0
    current_song_id := none }

/-- `current_position` read at wall-clock time `now`: elapsed time minus
accumulated pause time (frozen at the pause anchor while paused),
truncated and clamped into `[0, duration]`. -/
def current_position (st : PlaybackState) (now : ℚ) : Int :=
  if ¬st.is_playing then 0
  else
    let elapsed :=
      if st.is_paused then st.pause_start - st.start_time - st.total_paused
      else now - st.start_time - st.total_paused
    max 0 (min (pyInt elapsed) st.duration)

/-- `mark_manual_operation()` at time `now`. -/
def mark_manual_operation (st : PlaybackState) (now : ℚ) : PlaybackState :=
  { st with last_manual_operation_time := now }

end PlaybackState

/-- Debounce window for manual operations, in seconds.
Modelled from the spec: the constant `MANUAL_OPERATION_DEBOUNCE` lives in
`src/module/music_player/constants.py`, which is not part of the sources;
the spec describes it as a few hundred milliseconds and its example
scenario uses a 500 ms window. -/
def MANUAL_OPERATION_DEBOUNCE : ℚ := 1/2

/-- The song-end callback (src/cogs/music_cog.py,
`MusicPlayerCog._on_song_end` feeding `_play_next_song`): a natural
completion arriving at `now` is dropped when a manual operation was
stamped less than the debounce window ago; otherwise the queue advances
via `next()` and the returned song (if any) is played. -/
def on_song_end (st : PlaybackState) (q : MusicQueue) (now : ℚ) :
    Option Song × MusicQueue :=
  if st.last_manual_operation_time ≠ 0 ∧
      now - st.last_manual_operation_time < MANUAL_OPERATION_DEBOUNCE then
    (none, q)
  else q.next

/-- Cache-manager state (src/module/music_player/core/cache.py,
`CacheManager`).  `cachedIds` is the set of song identifiers that have a
`<id>.opus` file in the cache directory; `preloadIds` the identifiers
with an in-flight prefetch task. -/
structure CacheManager where
  window_behind : Int := 2
  window_ahead : Int := 3
  keepIds : List String := []
  cachedIds : List String := []
  preloadIds : List String := []
deriving Repr, DecidableEq

namespace CacheManager

/-- `_update_keep_ids`: keep the ids of the queue slice
`[max(0, cur − behind), min(len, cur + ahead + 1))`. -/
def update_keep_ids (cm : CacheManager) (queue : List Song)
    (currentIndex : Int) : CacheManager :=
  let keepStart := (max 0 (currentIndex - cm.window_behind)).toNat
  let keepEnd := (min (queue.length : Int) (currentIndex + cm.window_ahead + 1)).toNat
  { cm with keepIds := ((queue.drop keepStart).take (keepEnd - keepStart)).map Song.id }

/-- `_cleanup_old`: delete every cached file whose id is outside the keep
set. -/
def cleanup_old (cm : CacheManager) : CacheManager :=
  { cm with cachedIds := cm.cachedIds.filter (fun x => decide (x ∈ cm.keepIds)) }

/-- One iteration of the `_preload_ahead` loop at a given offset
(0-based here; the Python loop runs offsets `1..window_ahead`): stop past
the end of the queue, skip songs already cached or already in flight,
otherwise launch a prefetch task. -/
def preloadStep (queue : List Song) (currentIndex : Int)
    (acc : CacheManager) (offset : Nat) : CacheManager :=
  let nextIndex := currentIndex + ((offset : Int) + 1)
  if (queue.length : Int) ≤ nextIndex then acc
  else
    match queue.get? nextIndex.toNat with
    | none => acc
    | some song =>
        if song.id ∈ acc.cachedIds then acc
        else if song.id ∈ acc.preloadIds then acc
        else { acc with preloadIds := song.id :: acc.preloadIds }

/-- `_preload_ahead`: walk offsets `1..window_ahead`, launching prefetch
tasks via `preloadStep`. -/
def preload_ahead (cm : CacheManager) (queue : List Song)
    (currentIndex : Int) : CacheManager :=
  (List.range cm.window_ahead.toNat).foldl
    (preloadStep queue currentIndex) cm

/-- `on_song_change(queue, current_index, downloader)`: no-op on an empty
queue or a negative index; otherwise recompute the keep window, evict,
then prefetch ahead. -/
def on_song_change (cm : CacheManager) (queue : List Song)
    (currentIndex : Int) : CacheManager :=
  if queue.length = 0 ∨ currentIndex < 0 then cm
  else (((cm.update_keep_ids queue currentIndex).cleanup_old).preload_ahead
          queue currentIndex)

end CacheManager

/-- File-system view used by `CacheManager.put`: the set of existing file
paths. -/
structure CacheFS where
  files : List String
deriving Repr, DecidableEq

/-- `get_path(song_id)`: `<cache_dir>/<id>.opus`. -/
def cache_target (cacheDir songId : String) : String :=
  cacheDir ++ "/" ++ songId ++ ".opus"

/-- `put(song_id, file_path)` (src/module/music_player/core/cache.py):
no-op when the source already is the target or the target exists;
otherwise rename the source onto the target when the source exists. -/
def cache_put (cacheDir : String) (fs : CacheFS) (songId filePath : String) :
    CacheFS :=
  let target := cache_target cacheDir songId
  if filePath = target then fs
  else if target ∈ fs.files then fs
  else if filePath ∈ fs.files then
    { files := target :: fs.files.erase filePath }
  else fs

/-- `pat` occurs as a contiguous run at the head of `s`. -/
def charsHeadMatch : List Char → List Char → Bool
  | [], _ => true
  | _ :: _, [] => false
  | a :: as, b :: bs => a = b && charsHeadMatch as bs

/-- `pat` occurs somewhere inside `s` (Python's `pat in s`). -/
def charsOccur (pat : List Char) : List Char → Bool
  | [] => charsHeadMatch pat []
  | c :: rest => charsHeadMatch pat (c :: rest) || charsOccur pat rest

/-- Python's `pattern in text` on strings. -/
def strOccur (pat text : String) : Bool :=
  charsOccur pat.toList text.toList

/-- Python's `str.lower()` (character-wise lowering; the error patterns
are plain ASCII). -/
def pyLower (s : String) : String := String.mk (s.data.map Char.toLower)

/-- `YTDLPDownloader.ERROR_PATTERNS`
(src/module/music_player/downloader/yt_dlp.py), in dict insertion order. -/
def ERROR_PATTERNS : List (String × List String) :=
  [ ("age_restricted",
      [ "sign in to confirm your age", "age-restricted",
        "inappropriate for some users" ])
  , ("copyright",
      [ "copyright grounds", "blocked it", "content owner", "has blocked" ])
  , ("region_blocked", [ "not available in your country" ])
  , ("private", [ "private video", "sign in if you've been granted access" ])
  , ("unavailable",
      [ "video unavailable", "this video is unavailable",
        "no longer available", "has been removed",
        "account has been terminated" ]) ]

/-- `_detect_error_type`: first table entry with a pattern occurring in
the lower-cased message, else `"unknown"`. -/
def detect_error_type (errorMsg : String) : String :=
  let errorLower := pyLower errorMsg
  match ERROR_PATTERNS.find?
      (fun p => p.2.any (fun pat => strOccur pat errorLower)) with
  | some p => p.1
  | none => "unknown"

/-- `_get_user_friendly_message`. -/
def get_user_friendly_message (errorType : String) : String :=
  if errorType = "age_restricted" then "此影片有年齡限制，無法播放"
  else if errorType = "copyright" then "此影片因版權問題被阻擋"
  else if errorType = "region_blocked" then "此影片在您的地區無法觀看"
  else if errorType = "private" then "此影片為私人或不公開"
  else if errorType = "unavailable" then "此影片已不可用"
  else "無法取得影片資訊"

/-- The dict built by `_create_error_response`. -/
structure ErrorResponse where
  success : Bool
  error_type : String
  error_message : String
  display_message : String
  url : String
deriving Repr, DecidableEq

/-- `_create_error_response(error_msg, url)`. -/
def create_error_response (errorMsg url : String) : ErrorResponse :=
  { success := false
    error_type := detect_error_type errorMsg
    error_message := errorMsg
    display_message := get_user_friendly_message (detect_error_type errorMsg)
    url := url }

/-- Outcome of `extract_info` as consumed by `download`: `none` for a hard
failure (timeout / parse error), an error dict, or parsed metadata with
the video id. -/
inductive ExtractOutcome where
  | failed
  | err (e : ErrorResponse)
  | ok (songId : String)
deriving Repr, DecidableEq

/-- The short-circuit at the top of `download` (yt_dlp.py lines 250-256)
when no `song_id` is supplied: a failed or error-classified extraction
returns immediately with no local file; `none` means the method falls
through to the cache check and the actual download. -/
def download_early_exit (extract : ExtractOutcome) :
    Option (Option ErrorResponse × Option String) :=
  match extract with
  | .failed => some (none, none)
  | .err e => some (some e, none)
  | .ok _ => none

/-! ## Helper lemmas -/

theorem Spec2Proof.get?_isSome_of_lt {l : List Song} {n : Nat}
    (h : n < l.length) : (l.get? n).isSome := by
  simp [List.get?_eq_getElem?, List.getElem?_eq_getElem h]

/-- A concrete two-song queue used by witnesses. -/
def qAB : MusicQueue :=
  { queue := [songA, songB], current_index := 0, loop := false }

theorem Spec2Proof.emod_bounds {a n : Int} (hn : 0 < n) :
    0 ≤ a % n ∧ a % n < n :=
  ⟨Int.emod_nonneg a (by omega), Int.emod_lt_of_pos a hn⟩

/-! ## C1 — loop semantics of next / previous -/

/-- C1: navigation obeys the loop semantics.  With loop disabled, `next`
at the last index and `previous` at or before the first index return
nothing and leave the state untouched.  With loop enabled and ≥ 2 songs,
`next` and `previous` always return a song, and they wrap: `next` from
the last index lands on 0, `previous` from 0 lands on the last index. -/
theorem queue_nav_loop_semantics :
    (∀ q : MusicQueue, q.loop = false →
        q.queue.length ≠ 0 →
        q.current_index = (q.queue.length : Int) - 1 →
        q.next = (none, q)) ∧
    (∀ q : MusicQueue, q.loop = false →
        q.queue.length ≠ 0 → q.current_index ≤ 0 →
        q.previous = (none, q)) ∧
    (∀ q : MusicQueue, q.loop = true → 2 ≤ q.queue.length →
        (q.next.1.isSome ∧ q.previous.1.isSome) ∧
        (q.current_index = (q.queue.length : Int) - 1 →
            q.next.2.current_index = 0) ∧
        (q.current_index = 0 →
            q.previous.2.current_index = (q.queue.length : Int) - 1)) := by
  refine ⟨?_, ?_, ?_⟩
  · intro q hl hne hi
    unfold MusicQueue.next
    rw [if_neg hne, hl]
    simp only [Bool.false_eq_true, if_false]
    rw [if_pos (by omega)]
  · intro q hl hne hi
    unfold MusicQueue.previous
    rw [if_neg hne, hl]
    simp only [Bool.false_eq_true, if_false]
    rw [if_pos hi]
  · intro q hl hlen
    have hne : q.queue.length ≠ 0 := by omega
    have hpos : (0 : Int) < (q.queue.length : Int) := by
      exact_mod_cast Nat.pos_of_ne_zero hne
    obtain ⟨hn0, hnlt⟩ :=
      Spec2Proof.emod_bounds (a := q.current_index + 1) hpos
    obtain ⟨hp0, hplt⟩ :=
      Spec2Proof.emod_bounds (a := q.current_index - 1) hpos
    refine ⟨⟨?_, ?_⟩, ?_, ?_⟩
    · unfold MusicQueue.next
      rw [if_neg hne, if_pos hl]
      simp only [MusicQueue.current_song]
      rw [if_neg (by omega)]
      exact Spec2Proof.get?_isSome_of_lt (by omega)
    · unfold MusicQueue.previous
      rw [if_neg hne, if_pos hl]
      simp only [MusicQueue.current_song]
      rw [if_neg (by omega)]
      exact Spec2Proof.get?_isSome_of_lt (by omega)
    · intro hi
      unfold MusicQueue.next
      rw [if_neg hne, if_pos hl]
      simp only
      rw [hi]
      have : ((q.queue.length : Int) - 1 + 1) = (q.queue.length : Int) := by ring
      rw [this, Int.emod_self]
    · intro hi
      unfold MusicQueue.previous
      rw [if_neg hne, if_pos hl]
      simp only
      rw [hi]
      have h1 : (0 : Int) - 1 = -1 + (q.queue.length : Int) * 0 := by ring
      rw [h1, Int.add_mul_emod_self_left]
      have h2 : (-1 : Int) = ((q.queue.length : Int) - 1)
          + (q.queue.length : Int) * (-1) := by ring
      rw [h2, Int.add_mul_emod_self_left]
      exact Int.emod_eq_of_lt (by omega) (by omega)

/-- Witness for C1: `[songA, songB]` with loop off, cursor on the last
index, and the same queue with loop on. -/
theorem queue_nav_loop_semantics_witness :
    ({ queue := [songA, songB], current_index := 1, loop := false } : MusicQueue).next
      = (none, { queue := [songA, songB], current_index := 1, loop := false }) ∧
    (({ queue := [songA, songB], current_index := 1, loop := true } : MusicQueue).next.1.isSome ∧
     ({ queue := [songA, songB], current_index := 1, loop := true } : MusicQueue).previous.1.isSome) ∧
    ({ queue := [songA, songB], current_index := 1, loop := true } : MusicQueue).next.2.current_index = 0 := by
  refine ⟨?_, ?_, ?_⟩
  · exact queue_nav_loop_semantics.1 _ rfl (by decide) (by decide)
  · exact (queue_nav_loop_semantics.2.2 _ rfl (by decide)).1
  · exact (queue_nav_loop_semantics.2.2 _ rfl (by decide)).2.1 (by decide)

/-! ## C7 — jump_to -/

/-- C7: `jump_to` with an out-of-range index (negative, or ≥ length)
returns nothing and leaves the queue contents, current index and loop flag
unchanged; for every in-range index it sets the current index to that
index and returns the song stored there. -/
theorem jump_to_spec (q : MusicQueue) (i : Int) :
    ((i < 0 ∨ (q.queue.length : Int) ≤ i) → q.jump_to i = (none, q)) ∧
    (0 ≤ i → i < (q.queue.length : Int) →
      (q.jump_to i).2.current_index = i ∧
      (q.jump_to i).2.queue = q.queue ∧
      (q.jump_to i).2.loop = q.loop ∧
      (q.jump_to i).1 = q.queue.get? i.toNat ∧
      ((q.jump_to i).1).isSome) := by
  constructor
  · intro h
    unfold MusicQueue.jump_to
    simp only [if_pos h]
  · intro h0 hlt
    have hnot : ¬(i < 0 ∨ (q.queue.length : Int) ≤ i) := by omega
    simp only [MusicQueue.jump_to, if_neg hnot, MusicQueue.current_song,
      true_and, and_true]
    exact Spec2Proof.get?_isSome_of_lt (by omega)

/-- Witness for C7 at the concrete queue `[songA, songB]`, index 1. -/
theorem jump_to_spec_witness :
    (qAB.jump_to 1).2.current_index = 1 ∧
    (qAB.jump_to 1).2.queue = qAB.queue ∧
    (qAB.jump_to 1).2.loop = qAB.loop ∧
    (qAB.jump_to 1).1 = qAB.queue.get? (1 : Int).toNat ∧
    ((qAB.jump_to 1).1).isSome :=
  (jump_to_spec qAB 1).2 (by decide) (by decide)

/-! ## C9 — single-song queue under loop -/

/-- C9: with loop enabled and exactly one song (cursor at 0), `next` and
`previous` both return that song with the whole state unchanged, while
`has_next` and `has_previous` are both false. -/
theorem single_song_loop (q : MusicQueue) (s : Song)
    (hq : q.queue = [s]) (hl : q.loop = true) (hi : q.current_index = 0) :
    q.next = (some s, q) ∧ q.previous = (some s, q) ∧
    q.has_next = false ∧ q.has_previous = false := by
  obtain ⟨qs, ci, lp⟩ := q
  simp only at hq hi hl
  subst hq; subst hi; subst hl
  refine ⟨?_, ?_, ?_, ?_⟩ <;>
    simp [MusicQueue.next, MusicQueue.previous, MusicQueue.has_next,
      MusicQueue.has_previous, MusicQueue.current_song]

/-- Witness for C9 at the one-song queue `[songA]`. -/
theorem single_song_loop_witness :
    ({ queue := [songA], current_index := 0, loop := true } : MusicQueue).next
        = (some songA, { queue := [songA], current_index := 0, loop := true }) ∧
    ({ queue := [songA], current_index := 0, loop := true } : MusicQueue).previous
        = (some songA, { queue := [songA], current_index := 0, loop := true }) ∧
    ({ queue := [songA], current_index := 0, loop := true } : MusicQueue).has_next = false ∧
    ({ queue := [songA], current_index := 0, loop := true } : MusicQueue).has_previous = false :=
  single_song_loop _ songA rfl rfl rfl

theorem Spec2Proof.findIdxById_lt_length {songId : String} :
    ∀ {l : List Song} {i : Nat},
      MusicQueue.findIdxById songId l = some i → i < l.length := by
  intro l
  induction l with
  | nil => intro i h; simp [MusicQueue.findIdxById] at h
  | cons s rest ih =>
      intro i h
      simp only [MusicQueue.findIdxById] at h
      split at h
      · cases h; simp
      · rcases Option.map_eq_some'.mp h with ⟨j, hj, hji⟩
        have := ih hj
        simp only [List.length_cons]
        omega

theorem Spec2Proof.adjustIndex_wf (n i : Nat) (cur : Int)
    (hcur0 : 0 ≤ cur) (hcurlt : cur < (n : Int) + 1) (hi : i ≤ n) :
    (n = 0 → MusicQueue.adjustIndex n i cur = -1) ∧
    (n ≠ 0 → 0 ≤ MusicQueue.adjustIndex n i cur ∧
        MusicQueue.adjustIndex n i cur < (n : Int)) := by
  unfold MusicQueue.adjustIndex
  constructor <;> intro hn <;> split_ifs <;> omega

/-! ## C4 — index invariant across all queue operations -/

/-- C4: every queue operation preserves the invariant that the current
index is −1 exactly when the queue is empty and otherwise lies in
`[0, length)`; adding to an empty queue sets the index to 0; removing
the song at the current index re-clamps the index (to
`min cur (length − 2)` when ≥ 2 songs were present); removing a song
strictly before the current index decrements the index by one (both for
removal by position and removal by id). -/
theorem queue_index_invariant :
    (∀ (q : MusicQueue) (s : Song), q.wf → (q.add s).wf) ∧
    (∀ (q : MusicQueue) (ss : List Song), q.wf → (q.add_many ss).wf) ∧
    (∀ (q : MusicQueue) (sid : String), q.wf → (q.remove sid).2.wf) ∧
    (∀ (q : MusicQueue) (i : Int), q.wf → (q.remove_by_index i).2.wf) ∧
    (∀ q : MusicQueue, (q.clear).2.wf) ∧
    (∀ q : MusicQueue, q.wf → q.next.2.wf) ∧
    (∀ q : MusicQueue, q.wf → q.previous.2.wf) ∧
    (∀ (q : MusicQueue) (i : Int), q.wf → (q.jump_to i).2.wf) ∧
    (∀ (q : MusicQueue) (s : Song), q.queue = [] →
        (q.add s).current_index = 0) ∧
    (∀ (q : MusicQueue) (i : Int), q.wf → 1 ≤ i →
        i - 1 < q.current_index →
        (q.remove_by_index i).2.current_index = q.current_index - 1) ∧
    (∀ (q : MusicQueue) (sid : String) (j : Nat), q.wf →
        MusicQueue.findIdxById sid q.queue = some j →
        (j : Int) < q.current_index →
        (q.remove sid).2.current_index = q.current_index - 1) ∧
    (∀ (q : MusicQueue) (i : Int), q.wf → i - 1 = q.current_index →
        2 ≤ q.queue.length →
        (q.remove_by_index i).2.current_index
          = min q.current_index ((q.queue.length : Int) - 2)) := by
  refine ⟨?_, ?_, ?_, ?_, ?_, ?_, ?_, ?_, ?_, ?_, ?_, ?_⟩
  · intro q s h
    obtain ⟨qs, ci, lp⟩ := q
    cases qs with
    | nil => simp [MusicQueue.wf, MusicQueue.add]
    | cons a rest =>
        unfold MusicQueue.wf MusicQueue.add at *
        simp only [List.length_append, List.length_cons, List.length_nil] at *
        rw [if_neg (by omega)] at h
        rw [if_neg (by omega), if_neg (by omega)]
        omega
  · intro q ss h
    obtain ⟨qs, ci, lp⟩ := q
    by_cases h0 : qs.length = 0
    · have hq : qs = [] := List.length_eq_zero.mp h0
      subst hq
      by_cases h1 : ss.length = 0
      · have hs : ss = [] := List.length_eq_zero.mp h1
        subst hs
        simpa [MusicQueue.wf, MusicQueue.add_many] using h
      · simp [MusicQueue.wf, MusicQueue.add_many, h1]
        omega
    · simp only [MusicQueue.wf, MusicQueue.add_many, List.length_append]
        at h ⊢
      rw [if_neg h0] at h
      rw [if_neg (by omega)]
      rw [if_neg (by rintro ⟨c1, c2⟩; exact h0 c1)]
      omega
  · intro q sid h
    unfold MusicQueue.remove
    cases hf : MusicQueue.findIdxById sid q.queue with
    | none => exact h
    | some i =>
        have hi := Spec2Proof.findIdxById_lt_length hf
        have hq : 0 ≤ q.current_index ∧
            q.current_index < (q.queue.length : Int) := by
          unfold MusicQueue.wf at h
          rw [if_neg (by omega)] at h
          exact h
        have ha := Spec2Proof.adjustIndex_wf
          (q.queue.length - 1) i q.current_index
          hq.1 (by omega) (by omega)
        unfold MusicQueue.wf
        simp only [List.length_eraseIdx_of_lt hi]
        split_ifs with hn
        · exact ha.1 hn
        · exact ha.2 hn
  · intro q i h
    unfold MusicQueue.remove_by_index
    by_cases hout : i - 1 < 0 ∨ (q.queue.length : Int) ≤ i - 1
    · simp only [if_pos hout]
      exact h
    · simp only [if_neg hout]
      have hq : 0 ≤ q.current_index ∧
          q.current_index < (q.queue.length : Int) := by
        unfold MusicQueue.wf at h
        rw [if_neg (by omega)] at h
        exact h
      have hpos : (i - 1).toNat < q.queue.length := by omega
      have ha := Spec2Proof.adjustIndex_wf
        (q.queue.length - 1) ((i - 1).toNat)
        q.current_index hq.1 (by omega) (by omega)
      unfold MusicQueue.wf
      simp only [List.length_eraseIdx_of_lt hpos]
      split_ifs with hn
      · exact ha.1 hn
      · exact ha.2 hn
  · intro q
    unfold MusicQueue.clear MusicQueue.wf
    simp
  · intro q h
    unfold MusicQueue.next
    by_cases h0 : q.queue.length = 0
    · simp only [if_pos h0]; exact h
    · simp only [if_neg h0]
      have hpos : (0 : Int) < (q.queue.length : Int) := by omega
      by_cases hl : q.loop = true
      · simp only [if_pos hl]
        obtain ⟨he0, helt⟩ :=
          Spec2Proof.emod_bounds (a := q.current_index + 1) hpos
        unfold MusicQueue.wf
        simp only
        rw [if_neg h0]
        exact ⟨he0, helt⟩
      · simp only [if_neg hl]
        by_cases hend : (q.queue.length : Int) ≤ q.current_index + 1
        · simp only [if_pos hend]; exact h
        · simp only [if_neg hend]
          unfold MusicQueue.wf at h ⊢
          simp only
          rw [if_neg h0] at h ⊢
          omega
  · intro q h
    unfold MusicQueue.previous
    by_cases h0 : q.queue.length = 0
    · simp only [if_pos h0]; exact h
    · simp only [if_neg h0]
      have hpos : (0 : Int) < (q.queue.length : Int) := by omega
      by_cases hl : q.loop = true
      · simp only [if_pos hl]
        obtain ⟨he0, helt⟩ :=
          Spec2Proof.emod_bounds (a := q.current_index - 1) hpos
        unfold MusicQueue.wf
        simp only
        rw [if_neg h0]
        exact ⟨he0, helt⟩
      · simp only [if_neg hl]
        by_cases htop : q.current_index ≤ 0
        · simp only [if_pos htop]; exact h
        · simp only [if_neg htop]
          unfold MusicQueue.wf at h ⊢
          simp only
          rw [if_neg h0] at h ⊢
          omega
  · intro q i h
    unfold MusicQueue.jump_to
    by_cases hout : i < 0 ∨ (q.queue.length : Int) ≤ i
    · simp only [if_pos hout]; exact h
    · simp only [if_neg hout]
      unfold MusicQueue.wf
      simp only
      rw [if_neg (by omega)]
      omega
  · intro q s hq
    unfold MusicQueue.add
    simp only [hq]
    simp
  · intro q i h h1 hlt
    have hq : 0 ≤ q.current_index ∧
        q.current_index < (q.queue.length : Int) := by
      unfold MusicQueue.wf at h
      by_cases h0 : q.queue.length = 0
      · rw [if_pos h0] at h; omega
      · rw [if_neg h0] at h; exact h
    unfold MusicQueue.remove_by_index
    simp only [if_neg (show ¬(i - 1 < 0 ∨ (q.queue.length : Int) ≤ i - 1)
      by omega)]
    unfold MusicQueue.adjustIndex
    have hplt : ((i - 1).toNat : Int) < q.current_index := by omega
    have hlen : (q.queue.eraseIdx (i - 1).toNat).length =
        q.queue.length - 1 := List.length_eraseIdx_of_lt (by omega)
    simp only [hlen]
    rw [if_neg (by omega), if_pos hplt]
  · intro q sid j h hf hlt
    have hj := Spec2Proof.findIdxById_lt_length hf
    have hq : 0 ≤ q.current_index ∧
        q.current_index < (q.queue.length : Int) := by
      unfold MusicQueue.wf at h
      rw [if_neg (by omega)] at h
      exact h
    unfold MusicQueue.remove
    rw [hf]
    simp only
    unfold MusicQueue.adjustIndex
    have hlen : (q.queue.eraseIdx j).length = q.queue.length - 1 :=
      List.length_eraseIdx_of_lt hj
    simp only [hlen]
    rw [if_neg (by omega), if_pos hlt]
  · intro q i h heq hlen2
    have hq : 0 ≤ q.current_index ∧
        q.current_index < (q.queue.length : Int) := by
      unfold MusicQueue.wf at h
      rw [if_neg (by omega)] at h
      exact h
    unfold MusicQueue.remove_by_index
    simp only [if_neg (show ¬(i - 1 < 0 ∨ (q.queue.length : Int) ≤ i - 1)
      by omega)]
    unfold MusicQueue.adjustIndex
    have hlen : (q.queue.eraseIdx (i - 1).toNat).length =
        q.queue.length - 1 := List.length_eraseIdx_of_lt (by omega)
    simp only [hlen]
    rw [if_neg (by omega), if_neg (by omega : ¬(((i - 1).toNat : Int) <
      q.current_index)), if_pos (by omega : ((i - 1).toNat : Int) =
      q.current_index)]
    split_ifs <;> omega

/-- Witness for C4: the invariant is preserved when removing the middle
song of `[A, B, C]` (cursor on C), and the index decrements. -/
theorem queue_index_invariant_witness :
    ({ queue := [songA, songB, songC], current_index := 2,
       loop := false } : MusicQueue).remove_by_index 2
      |>.2.wf ∧
    (({ queue := [songA, songB, songC], current_index := 2,
        loop := false } : MusicQueue).remove_by_index 2).2.current_index
      = ({ queue := [songA, songB, songC], current_index := 2,
           loop := false } : MusicQueue).current_index - 1 := by
  constructor
  · exact queue_index_invariant.2.2.2.1 _ 2 (by decide)
  · exact queue_index_invariant.2.2.2.2.2.2.2.2.2.1 _ 2 (by decide)
      (by decide) (by decide)

/-! ## C10 — on_song_change no-op guard -/

/-- C10: `on_song_change` with an empty song list or a negative current
index leaves the cache manager exactly as it was: no file deleted, no
prefetch task launched, keep set unchanged. -/
theorem on_song_change_noop (cm : CacheManager) (songs : List Song) (i : Int)
    (h : songs = [] ∨ i < 0) : cm.on_song_change songs i = cm := by
  unfold CacheManager.on_song_change
  rcases h with h | h
  · subst h; simp
  · rw [if_pos (Or.inr h)]

/-- Witness for C10: negative index on a non-trivial cache state. -/
theorem on_song_change_noop_witness :
    ({ window_behind := 2, window_ahead := 3, keepIds := ["a"],
       cachedIds := ["a", "z"], preloadIds := ["b"] } : CacheManager).on_song_change
        [songA] (-1)
      = { window_behind := 2, window_ahead := 3, keepIds := ["a"],
          cachedIds := ["a", "z"], preloadIds := ["b"] } :=
  on_song_change_noop _ [songA] (-1) (Or.inr (by decide))

theorem Spec2Proof.pyInt_mono {x y : ℚ} (h : x ≤ y) : pyInt x ≤ pyInt y := by
  unfold pyInt
  split_ifs with hx hy1 hy2
  · exact Int.floor_le_floor h
  · exact absurd (le_trans hx h) hy1
  · have h1 : (⌈x⌉ : Int) ≤ 0 := Int.ceil_le.mpr (by push_cast; linarith)
    have h2 : (0 : Int) ≤ ⌊y⌋ := Int.floor_nonneg.mpr hy2
    omega
  · exact Int.ceil_le_ceil h

/-- The playback state right after `start(duration=180)` at t = 0. -/
def scenarioStart : PlaybackState := PlaybackState.start {} 0 180

/-- The scenario state after `pause()` at t = 45. -/
def scenarioPaused : PlaybackState := (scenarioStart.pause 45).2

/-- The scenario state after `resume()` at t = 55. -/
def scenarioResumed : PlaybackState := (scenarioPaused.resume 55).2

theorem Spec2Proof.preloadStep_preserves (queue : List Song) (ci : Int)
    (acc : CacheManager) (offset : Nat) :
    (CacheManager.preloadStep queue ci acc offset).keepIds = acc.keepIds ∧
    (CacheManager.preloadStep queue ci acc offset).cachedIds
      = acc.cachedIds := by
  constructor
  · simp only [CacheManager.preloadStep]
    split
    · rfl
    · split
      · rfl
      · split_ifs <;> rfl
  · simp only [CacheManager.preloadStep]
    split
    · rfl
    · split
      · rfl
      · split_ifs <;> rfl

theorem Spec2Proof.foldl_preloadStep_preserves (queue : List Song)
    (ci : Int) :
    ∀ (l : List Nat) (acc : CacheManager),
      ((l.foldl (CacheManager.preloadStep queue ci) acc).keepIds
          = acc.keepIds) ∧
      ((l.foldl (CacheManager.preloadStep queue ci) acc).cachedIds
          = acc.cachedIds) := by
  intro l
  induction l with
  | nil => intro acc; exact ⟨rfl, rfl⟩
  | cons a t ih =>
      intro acc
      simp only [List.foldl_cons]
      obtain ⟨h1, h2⟩ := ih (CacheManager.preloadStep queue ci acc a)
      obtain ⟨h3, h4⟩ := Spec2Proof.preloadStep_preserves queue ci acc a
      exact ⟨h1.trans h3, h2.trans h4⟩

theorem Spec2Proof.preload_ahead_preserves (cm : CacheManager)
    (queue : List Song) (ci : Int) :
    ((cm.preload_ahead queue ci).keepIds = cm.keepIds) ∧
    ((cm.preload_ahead queue ci).cachedIds = cm.cachedIds) :=
  Spec2Proof.foldl_preloadStep_preserves queue ci _ cm

theorem Spec2Proof.mem_take_drop_map_id (songs : List Song) (a b : Nat)
    (x : String) :
    (x ∈ ((songs.drop a).take b).map Song.id ↔
      ∃ i, a ≤ i ∧ i < a + b ∧
        ∃ s, songs.get? i = some s ∧ s.id = x) := by
  rw [List.mem_map]
  constructor
  · rintro ⟨s, hs, rfl⟩
    obtain ⟨j, hj⟩ := List.mem_iff_get?.mp hs
    have hjb : j < b := by
      by_contra hge
      rw [List.get?_eq_none.mpr
        (le_trans (List.length_take_le b _) (by omega))] at hj
      exact absurd hj (by simp)
    rw [List.get?_take hjb, List.get?_drop] at hj
    exact ⟨a + j, by omega, by omega, s, hj, rfl⟩
  · rintro ⟨i, hai, hib, s, hget, rfl⟩
    refine ⟨s, ?_, rfl⟩
    apply List.mem_iff_get?.mpr
    refine ⟨i - a, ?_⟩
    rw [List.get?_take (by omega), List.get?_drop]
    rw [show a + (i - a) = i by omega]
    exact hget

/-! ## C3 — sliding-window keep set and eviction -/

/-- C3: after `on_song_change` with window behind = 2 / ahead = 3 and the
cursor at index 5 of a 10-song queue, the keep set holds exactly the
identifiers of the songs at indices 3..8, and a previously cached file
survives exactly when its identifier is in that set (everything outside
is deleted). -/
theorem cache_window_spec (cm : CacheManager) (songs : List Song)
    (hlen : songs.length = 10) (hb : cm.window_behind = 2)
    (ha : cm.window_ahead = 3) :
    (∀ x, x ∈ (cm.on_song_change songs 5).keepIds ↔
        ∃ i, 3 ≤ i ∧ i < 9 ∧
          ∃ s, songs.get? i = some s ∧ s.id = x) ∧
    (∀ x, x ∈ (cm.on_song_change songs 5).cachedIds ↔
        x ∈ cm.cachedIds ∧ x ∈ (cm.on_song_change songs 5).keepIds) := by
  have hstep : cm.on_song_change songs 5
      = (((cm.update_keep_ids songs 5).cleanup_old).preload_ahead
          songs 5) := by
    unfold CacheManager.on_song_change
    rw [if_neg (by omega)]
  obtain ⟨hk, hc⟩ := Spec2Proof.preload_ahead_preserves
    ((cm.update_keep_ids songs 5).cleanup_old) songs 5
  have hkeep : (cm.on_song_change songs 5).keepIds
      = ((songs.drop 3).take 6).map Song.id := by
    rw [hstep, hk]
    unfold CacheManager.cleanup_old CacheManager.update_keep_ids
    simp only [hb, ha, hlen]
    norm_num
    rfl
  have hcache : (cm.on_song_change songs 5).cachedIds
      = cm.cachedIds.filter
          (fun x => decide (x ∈ (cm.update_keep_ids songs 5).keepIds)) := by
    rw [hstep, hc]
    unfold CacheManager.cleanup_old
    rfl
  have hkeep' : (cm.update_keep_ids songs 5).keepIds
      = ((songs.drop 3).take 6).map Song.id := by
    unfold CacheManager.update_keep_ids
    simp only [hb, ha, hlen]
    norm_num
    rfl
  constructor
  · intro x
    rw [hkeep]
    have := Spec2Proof.mem_take_drop_map_id songs 3 6 x
    simpa using this
  · intro x
    rw [hcache, hkeep, List.mem_filter, hkeep']
    simp

/-- A family of pairwise distinct concrete songs, used by witnesses. -/
def songN (n : Nat) : Song :=
  { id := toString n, title := toString n, url := toString n,
    duration := 60, uploader := "u" }

/-- A concrete cache manager with files cached for songs "0" and "5". -/
def witnessCacheCM : CacheManager :=
  { window_behind := 2, window_ahead := 3, keepIds := [],
    cachedIds := ["0", "5"], preloadIds := [] }

/-- A concrete 10-song queue. -/
def witnessSongs : List Song := (List.range 10).map songN

/-- Witness for C3: on the concrete 10-song queue, id "3" is in the keep
set and the cached file for "0" (index outside 3..8) is gone. -/
theorem cache_window_spec_witness :
    (("3" ∈ (witnessCacheCM.on_song_change witnessSongs 5).keepIds)
      ↔ ∃ i, 3 ≤ i ∧ i < 9 ∧
          ∃ s, witnessSongs.get? i = some s ∧ s.id = "3") ∧
    (("0" ∈ (witnessCacheCM.on_song_change witnessSongs 5).cachedIds)
      ↔ ("0" ∈ witnessCacheCM.cachedIds ∧
          "0" ∈ (witnessCacheCM.on_song_change witnessSongs 5).keepIds)) := by
  constructor
  · exact (cache_window_spec witnessCacheCM witnessSongs (by decide)
      rfl rfl).1 "3"
  · exact (cache_window_spec witnessCacheCM witnessSongs (by decide)
      rfl rfl).2 "0"

/-! ## C6 — classification of "private video" extraction failures -/

/-- C6: when the extraction error text contains "private video" (and no
pattern of an earlier family in the table — age_restricted, copyright,
region_blocked — matches), the response is classified `private`, carries
the user message "此影片為私人或不公開", is marked unsuccessful, and
`download` short-circuits with no local file; the reason comes from
substring matching over the pattern table with `unknown` as fallback. -/
theorem private_video_classification (msg url : String)
    (hpriv : strOccur "private video" (pyLower msg) = true)
    (h1 : strOccur "sign in to confirm your age" (pyLower msg) = false)
    (h2 : strOccur "age-restricted" (pyLower msg) = false)
    (h3 : strOccur "inappropriate for some users" (pyLower msg) = false)
    (h4 : strOccur "copyright grounds" (pyLower msg) = false)
    (h5 : strOccur "blocked it" (pyLower msg) = false)
    (h6 : strOccur "content owner" (pyLower msg) = false)
    (h7 : strOccur "has blocked" (pyLower msg) = false)
    (h8 : strOccur "not available in your country" (pyLower msg) = false) :
    detect_error_type msg = "private" ∧
    (create_error_response msg url).success = false ∧
    (create_error_response msg url).error_type = "private" ∧
    (create_error_response msg url).display_message = "此影片為私人或不公開" ∧
    download_early_exit (ExtractOutcome.err (create_error_response msg url))
      = some (some (create_error_response msg url), none) := by
  have hdet : detect_error_type msg = "private" := by
    unfold detect_error_type ERROR_PATTERNS
    simp [List.find?, h1, h2, h3, h4, h5, h6, h7, h8, hpriv]
  refine ⟨hdet, rfl, ?_, ?_, rfl⟩
  · simp [create_error_response, hdet]
  · simp only [create_error_response, hdet]
    decide

/-- Witness for C6: the literal yt-dlp error text of a private video. -/
theorem private_video_classification_witness :
    detect_error_type "Private video. Sign in if you've been granted access"
      = "private" ∧
    (create_error_response
        "Private video. Sign in if you've been granted access" "u").success
      = false ∧
    (create_error_response
        "Private video. Sign in if you've been granted access" "u").error_type
      = "private" ∧
    (create_error_response
        "Private video. Sign in if you've been granted access" "u").display_message
      = "此影片為私人或不公開" ∧
    download_early_exit (ExtractOutcome.err (create_error_response
        "Private video. Sign in if you've been granted access" "u"))
      = some (some (create_error_response
          "Private video. Sign in if you've been granted access" "u"), none) :=
  private_video_classification
    "Private video. Sign in if you've been granted access" "u"
    (by decide) (by decide) (by decide) (by decide) (by decide) (by decide)
    (by decide) (by decide) (by decide)

/-! ## C8 — idempotence of put -/

/-- C8: `put` is idempotent — a second identical call changes nothing —
it is a no-op when the source path already is the target or when the
target file already exists, and (on a duplicate-free file system where
the source or the target exists) it leaves exactly one file at the
managed location for that identifier. -/
theorem put_idempotent (cacheDir : String) (fs : CacheFS)
    (songId filePath : String) :
    cache_put cacheDir (cache_put cacheDir fs songId filePath) songId filePath
      = cache_put cacheDir fs songId filePath ∧
    (filePath = cache_target cacheDir songId →
        cache_put cacheDir fs songId filePath = fs) ∧
    (cache_target cacheDir songId ∈ fs.files →
        cache_put cacheDir fs songId filePath = fs) ∧
    (fs.files.Nodup →
        (filePath ∈ fs.files ∨ cache_target cacheDir songId ∈ fs.files) →
        (cache_put cacheDir fs songId filePath).files.count
            (cache_target cacheDir songId) = 1) := by
  refine ⟨?_, ?_, ?_, ?_⟩
  · by_cases hpt : filePath = cache_target cacheDir songId
    · simp [cache_put, hpt]
    · by_cases hb : cache_target cacheDir songId ∈ fs.files
      · simp [cache_put, hpt, hb]
      · by_cases hc : filePath ∈ fs.files
        · simp [cache_put, hpt, hb, hc]
        · simp [cache_put, hpt, hb, hc]
  · intro h
    simp [cache_put, h]
  · intro h
    by_cases hpt : filePath = cache_target cacheDir songId
    · simp [cache_put, hpt]
    · simp [cache_put, hpt, h]
  · intro hnd hmem
    by_cases hpt : filePath = cache_target cacheDir songId
    · have htg : cache_target cacheDir songId ∈ fs.files := by
        rcases hmem with h | h
        · rw [← hpt]; exact h
        · exact h
      simp only [cache_put, if_pos hpt]
      exact List.count_eq_one_of_mem hnd htg
    · by_cases hb : cache_target cacheDir songId ∈ fs.files
      · simp only [cache_put, if_neg hpt, if_pos hb]
        exact List.count_eq_one_of_mem hnd hb
      · have hc : filePath ∈ fs.files := by
          rcases hmem with h | h
          · exact h
          · exact absurd h hb
        simp only [cache_put, if_neg hpt, if_neg hb, if_pos hc]
        have hz : (fs.files.erase filePath).count
            (cache_target cacheDir songId) = 0 :=
          List.count_eq_zero.mpr
            (fun hx => hb (List.mem_of_mem_erase hx))
        simp [List.count_cons_self, hz]

/-- Witness for C8: adopting a freshly downloaded file into the cache. -/
theorem put_idempotent_witness :
    cache_put "cache"
        (cache_put "cache" ⟨["tmp/x.webm"]⟩ "x" "tmp/x.webm") "x" "tmp/x.webm"
      = cache_put "cache" ⟨["tmp/x.webm"]⟩ "x" "tmp/x.webm" ∧
    (cache_put "cache" ⟨["tmp/x.webm"]⟩ "x" "tmp/x.webm").files.count
        (cache_target "cache" "x") = 1 := by
  constructor
  · exact (put_idempotent "cache" ⟨["tmp/x.webm"]⟩ "x" "tmp/x.webm").1
  · exact (put_idempotent "cache" ⟨["tmp/x.webm"]⟩ "x" "tmp/x.webm").2.2.2
      (by decide) (Or.inl (by decide))

/-! ## C2 — current_position invariants -/

/-- C2: for any playback state with a non-negative duration,
`current_position` lies in `[0, duration]`; it is monotone in wall-clock
time while playing un-paused; it is constant while paused; and the spec's
scenario (start 180 s, read at 45 s, pause, read 10 s later, resume at
55 s, read at 60 s) yields positions 45, 45 and 50. -/
theorem playback_position_invariants :
    (∀ (st : PlaybackState) (now : ℚ), 0 ≤ st.duration →
        0 ≤ st.current_position now ∧
        st.current_position now ≤ st.duration) ∧
    (∀ (st : PlaybackState) (now1 now2 : ℚ), st.is_playing = true →
        st.is_paused = false → now1 ≤ now2 →
        st.current_position now1 ≤ st.current_position now2) ∧
    (∀ (st : PlaybackState) (now1 now2 : ℚ), st.is_paused = true →
        st.current_position now1 = st.current_position now2) ∧
    (scenarioStart.current_position 45 = 45 ∧
     scenarioPaused.current_position 55 = 45 ∧
     scenarioResumed.current_position 60 = 50) := by
  refine ⟨?_, ?_, ?_, ?_⟩
  · intro st now hd
    unfold PlaybackState.current_position
    split_ifs with hp
    · exact ⟨le_max_left _ _, max_le hd (min_le_right _ _)⟩
    · exact ⟨le_max_left _ _, max_le hd (min_le_right _ _)⟩
    · exact ⟨le_refl 0, hd⟩
  · intro st n1 n2 hp hpa h12
    simp only [PlaybackState.current_position, hp, hpa, not_true,
      Bool.false_eq_true, if_false]
    have hm := Spec2Proof.pyInt_mono
      (x := n1 - st.start_time - st.total_paused)
      (y := n2 - st.start_time - st.total_paused) (by linarith)
    exact max_le_max (le_refl _) (min_le_min hm (le_refl _))
  · intro st n1 n2 hpa
    simp only [PlaybackState.current_position, hpa, if_true]
  · refine ⟨?_, ?_, ?_⟩ <;>
      norm_num [scenarioStart, scenarioPaused, scenarioResumed,
        PlaybackState.start, PlaybackState.pause, PlaybackState.resume,
        PlaybackState.current_position, pyInt]

/-- Witness for C2: the range bound instantiated on the scenario state at
t = 45. -/
theorem playback_position_invariants_witness :
    0 ≤ scenarioStart.current_position 45 ∧
    scenarioStart.current_position 45 ≤ scenarioStart.duration :=
  playback_position_invariants.1 scenarioStart 45 (by norm_num [scenarioStart,
    PlaybackState.start])

/-! ## C5 — debounce of the natural-completion callback -/

/-- C5: a natural-completion signal handled at time `te`, when a manual
operation was stamped at time `tm ≠ 0` less than the debounce window
before `te`, is discarded: the song-end handler neither advances the
queue nor starts playback. -/
theorem debounce_drops_completion (st : PlaybackState) (q : MusicQueue)
    (tm te : ℚ) (htm : tm ≠ 0)
    (hwin : te - tm < MANUAL_OPERATION_DEBOUNCE) :
    on_song_end (st.mark_manual_operation tm) q te = (none, q) := by
  unfold on_song_end PlaybackState.mark_manual_operation
  simp only
  rw [if_pos ⟨htm, hwin⟩]

/-- Witness for C5: completion 100 ms after a manual operation stamped at
t = 100 s, with the 500 ms window. -/
theorem debounce_drops_completion_witness :
    on_song_end (PlaybackState.mark_manual_operation {} 100) qAB (1001/10)
      = (none, qAB) :=
  debounce_drops_completion {} qAB 100 (1001/10) (by norm_num) (by
    unfold MANUAL_OPERATION_DEBOUNCE; norm_num)
